import Mathlib

/-!
Verification of the Cloudflare DNS automation scripts
(`update_dns.py`, `enforce_standard.py`, `update_pages_dns.py`,
`export_zone_dns_summary.py`).

The Python scripts are shallowly embedded: every definition below mirrors a
function of the source, with the HTTP provider replaced by explicit inputs
(the record lists or responses the provider would return) and every mutating
HTTP call reified as an `ApiCall` value in the result.  Provider-assigned
record ids are modelled by an opaque constant string, since no reconciliation
decision in the source ever depends on the id of a freshly created record.
-/

/-- A DNS record as returned by the provider's list endpoint
(`{id, type, name, content, ttl, priority?, proxied?}`). -/
structure DNSRecord where
  id : String
  rtype : String
  name : String
  content : String
  ttl : Nat
  priority : Option Nat
  proxied : Option Bool
  deriving DecidableEq, Repr

/-- The JSON payload the scripts send on create/update calls. -/
structure Payload where
  rtype : String
  name : String
  content : String
  ttl : Nat
  priority : Option Nat
  proxied : Option Bool
  comment : Option String
  deriving DecidableEq, Repr

/-- A mutating HTTP call issued to the provider. -/
inductive ApiCall where
  | post (p : Payload)
  | patch (recordId : String) (p : Payload)
  | put (recordId : String) (p : Payload)
  | delete (recordId : String)
  deriving DecidableEq, Repr

/- ### Pagination (`enforce_standard.get_all_records`, `update_dns.get_dns_records`)

The synthetic paged provider: it holds the full list `l` and serves bounded
pages of size `perPage`, reporting `total_pages = ceil (length / perPage)`
in `result_info`. -/

/-- The slice of records the provider returns for page `page` (1-based). -/
def pageSlice (l : List DNSRecord) (perPage page : Nat) : List DNSRecord :=
  (l.drop ((page - 1) * perPage)).take perPage

/-- The `result_info.total_pages` value reported by the provider: `ceil (n / perPage)`. -/
def totalPages (n perPage : Nat) : Nat :=
  (n + perPage - 1) / perPage

/-- The `while True` loop body of `enforce_standard.get_all_records`: fetch
page `page`, stop as soon as `page >= total_pages`, else continue with the
next page. -/
def fetchPages (l : List DNSRecord) (perPage page : Nat) : List DNSRecord :=
  let recs := pageSlice l perPage page
  if totalPages l.length perPage ≤ page then recs
  else recs ++ fetchPages l perPage (page + 1)
termination_by totalPages l.length perPage - page
decreasing_by simp_wf; omega

/-- Model of `enforce_standard.get_all_records`: starts at page 1. -/
def getAllRecords (l : List DNSRecord) (perPage : Nat) : List DNSRecord :=
  fetchPages l perPage 1

/-- Model of `update_dns.get_dns_records`: a single GET with no pagination parameters;
against the paged provider it receives only the first page. -/
def getDnsRecordsPaged (l : List DNSRecord) (perPage : Nat) : List DNSRecord :=
  pageSlice l perPage 1

/-- A record with index `i` used to build concrete zone states. -/
def mkRec (i : Nat) : DNSRecord :=
  ⟨toString i, "A", "x.example.org", toString i, 300, none, some false⟩

/- ### `enforce_standard.py` -/

/-- Name resolution used by `ensure_record` and the CLI entry points:
`"@"` denotes the zone apex, otherwise the relative name is qualified. -/
def resolveName (zone relName : String) : String :=
  if relName = "@" then zone else relName ++ "." ++ zone

/-- A desired record specification (one entry of the `standards` list of
`enforce_standard.enforce_standard`, or an ad-hoc spec). -/
structure RecordDef where
  rtype : String
  name : String
  content : String
  priority : Option Nat
  proxied : Option Bool
  deriving DecidableEq, Repr

/-- The records of `all_records` with the spec's type and resolved name
(`matches` in `ensure_record`). -/
def matchesFor (zone : String) (rd : RecordDef) (allRecords : List DNSRecord) :
    List DNSRecord :=
  allRecords.filter (fun r => r.rtype == rd.rtype && r.name == resolveName zone rd.name)

/-- The existence check of `ensure_record` on the filtered `matches` list:
MX/TXT/A look for an exact content match (plus priority for MX, defaulting
to 10); every other type compares only the first match's content. -/
def satisfiedOn (rd : RecordDef) (matchesL : List DNSRecord) : Bool :=
  if rd.rtype == "MX" || rd.rtype == "TXT" || rd.rtype == "A" then
    let exactL := matchesL.filter (fun r => r.content == rd.content)
    let exactL :=
      if rd.rtype == "MX" then
        exactL.filter (fun r => r.priority == some (rd.priority.getD 10))
      else exactL
    !exactL.isEmpty
  else
    match matchesL with
    | [] => false
    | m :: _ => m.content == rd.content

/-- Whether `ensure_record` classifies the spec as already existing. -/
def ensureSatisfied (zone : String) (rd : RecordDef) (allRecords : List DNSRecord) :
    Bool :=
  satisfiedOn rd (matchesFor zone rd allRecords)

/-- The create payload `ensure_record` sends: TTL 1 (auto), priority added
for MX (default 10), proxied added for A/CNAME (default true). -/
def payloadOf (zone : String) (rd : RecordDef) : Payload :=
  ⟨rd.rtype, resolveName zone rd.name, rd.content, 1,
    if rd.rtype == "MX" then some (rd.priority.getD 10) else none,
    if rd.rtype == "A" || rd.rtype == "CNAME" then some (rd.proxied.getD true) else none,
    none⟩

/-- Model of `enforce_standard.ensure_record`: returns whether a change was needed
(the Python return value) together with the mutating calls issued.  In
dry-run mode the create is reported but not issued. -/
def ensureRecord (zone : String) (rd : RecordDef) (allRecords : List DNSRecord)
    (dryRun : Bool) : Bool × List ApiCall :=
  if ensureSatisfied zone rd allRecords then (false, [])
  else if dryRun then (true, [])
  else (true, [ApiCall.post (payloadOf zone rd)])

/-- The `www` CNAME entry of the standard set: `CNAME www -> zone`,
unproxied. -/
def cnameRd (zone : String) : RecordDef :=
  ⟨"CNAME", "www", zone, none, some false⟩

/-- The fixed standard record set of `enforce_standard.enforce_standard`. -/
def standards (zone : String) : List RecordDef :=
  [⟨"MX", "@", "freeforcharity-org.mail.protection.outlook.com", some 0, none⟩,
   ⟨"TXT", "@", "v=spf1 include:spf.protection.outlook.com -all", none, none⟩,
   ⟨"TXT", "_dmarc", "v=DMARC1; p=none; rua=mailto:dmarc-rua@freeforcharity.org", none, none⟩,
   ⟨"A", "@", "185.199.108.153", none, some false⟩,
   ⟨"A", "@", "185.199.109.153", none, some false⟩,
   ⟨"A", "@", "185.199.110.153", none, some false⟩,
   ⟨"A", "@", "185.199.111.153", none, some false⟩,
   cnameRd zone]

/-- One reconciliation run of `enforce_standard.enforce_standard` against a
snapshot `recs` of the zone: the `changes_needed` count and the mutating
calls issued, processing the standard set in order against the snapshot. -/
def enforceRun (zone : String) (recs : List DNSRecord) (dryRun : Bool) :
    Nat × List ApiCall :=
  let results := (standards zone).map (fun rd => ensureRecord zone rd recs dryRun)
  (results.countP (fun r => r.1), results.flatMap (fun r => r.2))

/-- The provider record created from a POST payload (the provider assigns the
id; it is modelled as an opaque constant because no decision in the source
reads the id of a freshly created record). -/
def recordOfPayload (freshId : String) (p : Payload) : DNSRecord :=
  ⟨freshId, p.rtype, p.name, p.content, p.ttl, p.priority, p.proxied⟩

/-- Provider-side effect of one mutating call on the zone's record set. -/
def applyCall (recs : List DNSRecord) (c : ApiCall) : List DNSRecord :=
  match c with
  | .post p => recs ++ [recordOfPayload "new" p]
  | .patch rid p => recs.map (fun r => if r.id == rid then recordOfPayload r.id p else r)
  | .put rid p => recs.map (fun r => if r.id == rid then recordOfPayload r.id p else r)
  | .delete rid => recs.filter (fun r => r.id != rid)

/-- Provider-side effect of a call sequence. -/
def applyCalls (recs : List DNSRecord) (calls : List ApiCall) : List DNSRecord :=
  calls.foldl applyCall recs

/-- The records created by the POST calls of a call sequence, in order. -/
def postedRecords (calls : List ApiCall) : List DNSRecord :=
  calls.flatMap (fun c =>
    match c with
    | .post p => [recordOfPayload "new" p]
    | _ => [])

/- ### `update_dns.py` record operations -/

/-- Per-record outcome reported by `update_dns.update_or_create_records`. -/
inductive RecStatus where
  | unchanged (recordId : String)
  | dryRunStatus (recordId : String) (proposed : Payload)
  | updated (recordId : String)
  | createdNew (p : Payload)
  | wouldCreate (p : Payload)
  deriving DecidableEq, Repr

/-- Model of `update_dns.update_or_create_records` (A/AAAA): given the existing
records at the name, either creates one record (none exist) or walks every
existing record, leaving exact matches alone and PATCHing each record whose
content or proxied flag differs.  Returns the reported statuses and the
mutating calls issued. -/
def updateOrCreateRecords (name newIp : String) (dryRun proxied : Bool)
    (rtype : String) (existing : List DNSRecord) : List RecStatus × List ApiCall :=
  let payload : Payload := ⟨rtype, name, newIp, 120, none, some proxied, none⟩
  match existing with
  | [] =>
    if dryRun then ([.wouldCreate payload], [])
    else ([.createdNew payload], [.post payload])
  | _ =>
    let step : DNSRecord → RecStatus × List ApiCall := fun r =>
      if r.content == newIp && r.proxied == some proxied then (.unchanged r.id, [])
      else if dryRun then (.dryRunStatus r.id payload, [])
      else (.updated r.id, [.patch r.id payload])
    ((existing.map step).map Prod.fst, (existing.map step).flatMap Prod.snd)

/-- Outcome reported by `update_dns.update_or_create_mx_txt`. -/
inductive MxTxtResult where
  | unchanged (recordId : String)
  | wouldCreate (p : Payload)
  | created (p : Payload)
  deriving DecidableEq, Repr

/-- Model of `update_dns.update_or_create_mx_txt`: looks for the first existing
record with exactly the desired content (and priority, for MX); if found it
is reported unchanged, otherwise a new record is created alongside the
existing ones. -/
def updateOrCreateMxTxt (name content : String) (dryRun : Bool) (rtype : String)
    (priority : Nat) (existing : List DNSRecord) : MxTxtResult × List ApiCall :=
  let payload : Payload :=
    ⟨rtype, name, content, 1,
      if rtype == "MX" then some priority else none, none, none⟩
  match existing.find? (fun r =>
      r.content == content && (rtype != "MX" || r.priority == some priority)) with
  | some r => (.unchanged r.id, [])
  | none =>
    if dryRun then (.wouldCreate payload, [])
    else (.created payload, [.post payload])

/-- A provider HTTP response, reduced to the two flags the scripts check:
the transport-level `r.ok` and the body-level `success` field.  A delete of
an already-absent id yields a 404, i.e. `ok = false`. -/
structure HttpResponse where
  ok : Bool
  success : Bool
  deriving DecidableEq, Repr

/-- Model of `update_dns.api_delete`: raises `CloudflareError` when the response is
not OK or carries `success = false`; there is no special case for 404. -/
def apiDeleteModel (path : String) (resp : HttpResponse) : Except String HttpResponse :=
  if !resp.ok then .error ("DELETE " ++ path ++ " failed")
  else if !resp.success then .error ("DELETE " ++ path ++ " returned error")
  else .ok resp

/-- Outcome of `update_dns.delete_dns_record`. -/
inductive DeleteResult where
  | wouldDelete (recordId : String)
  | deleted (recordId : String)
  deriving DecidableEq, Repr

/-- Model of `update_dns.delete_dns_record`: skips the call entirely in dry-run,
otherwise issues the DELETE and propagates any `CloudflareError` from
`api_delete` unchanged. -/
def deleteDnsRecord (recordId : String) (dryRun : Bool) (resp : HttpResponse) :
    Except String DeleteResult :=
  if dryRun then .ok (.wouldDelete recordId)
  else
    match apiDeleteModel ("/dns_records/" ++ recordId) resp with
    | .ok _ => .ok (.deleted recordId)
    | .error e => .error e

/- ### `update_dns.py` argument validation (`validate_ip`, `main`) -/

/-- One dotted-quad octet as accepted by Python's `ipaddress.IPv4Address`:
1–3 ASCII digits, no leading zero, value at most 255. -/
def validOctet (s : String) : Bool :=
  decide (0 < s.length) && decide (s.length ≤ 3) && s.all Char.isDigit &&
    (s.length == 1 || s.front != '0') && decide ((s.toNat?.getD 0) ≤ 255)

/-- Acceptance of `ipaddress.IPv4Address`: exactly four valid octets. -/
def isValidIPv4 (s : String) : Bool :=
  let parts := s.splitOn "."
  parts.length == 4 && parts.all validOctet

/-- One hexadecimal group of an IPv6 literal: 1–4 hex digits. -/
def validHexGroup (s : String) : Bool :=
  decide (0 < s.length) && decide (s.length ≤ 4) &&
    s.all (fun c => c.isDigit || ('a' ≤ c && c ≤ 'f') || ('A' ≤ c && c ≤ 'F'))

/-- Groups of a colon-separated IPv6 fragment; the last group may be an
embedded dotted-quad, which counts as two 16-bit groups. -/
def ipv6GroupsOk (parts : List String) : Bool × Nat :=
  match parts.reverse with
  | [] => (true, 0)
  | last :: front =>
    if last.contains '.' then
      (isValidIPv4 last && front.all validHexGroup, front.length + 2)
    else
      (parts.all validHexGroup, parts.length)

/-- Acceptance of `ipaddress.IPv6Address`: at most one `::`; without it exactly
eight groups, with it at most seven groups on the two sides combined. -/
def isValidIPv6 (s : String) : Bool :=
  match s.splitOn "::" with
  | [whole] =>
    let (ok, n) := ipv6GroupsOk (whole.splitOn ":")
    ok && n == 8
  | [l, r] =>
    let lparts := if l.isEmpty then [] else l.splitOn ":"
    let rparts := if r.isEmpty then [] else r.splitOn ":"
    let (okL, nL) := ipv6GroupsOk lparts
    let (okR, nR) := ipv6GroupsOk rparts
    okL && okR && decide (nL + nR ≤ 7)
  | _ => false

/-- Model of `update_dns.validate_ip` as a predicate: A requires a valid IPv4
literal, AAAA a valid IPv6 literal, anything else passes. -/
def validateIp (ip : String) (rtype : String) : Bool :=
  if rtype == "A" then isValidIPv4 ip
  else if rtype == "AAAA" then isValidIPv6 ip
  else true

/-- The parsed command line of `update_dns.py`, with the bearer token already
resolved through the external credential chain. -/
structure Args where
  zone : String
  name : Option String
  rtype : Option String
  ip : Option String
  target : Option String
  content : Option String
  priority : Nat
  recordId : Option String
  search : Bool
  delete : Bool
  token : String
  dryRun : Bool
  proxied : Bool
  noProxy : Bool
  deriving DecidableEq, Repr

/-- Result of `update_dns.main`'s local validation phase. -/
inductive ValidateOutcome where
  | exitCode (n : Nat)
  | proceed (proxied : Bool)
  deriving DecidableEq, Repr

/-- The validation phase of `update_dns.main` (lines 261–296): argument
requirements per mode (exit 2), local IP validation (`SystemExit` → exit 1),
the `--no-proxy`/`--proxied` exclusivity check, and the nonempty-token check,
all evaluated before any provider call and before any dry-run branch. -/
def mainValidate (a : Args) : ValidateOutcome :=
  let argCheck : Option Nat :=
    if a.delete then
      if a.recordId.isNone then some 2 else none
    else if a.search then
      if a.name.isNone || a.rtype.isNone then some 2 else none
    else
      if a.name.isNone || a.rtype.isNone then some 2
      else if (a.rtype == some "A" || a.rtype == some "AAAA") && a.ip.isNone then some 2
      else if a.rtype == some "CNAME" && a.target.isNone then some 2
      else if (a.rtype == some "MX" || a.rtype == some "TXT") && a.content.isNone then some 2
      else if (a.rtype == some "A" || a.rtype == some "AAAA")
          && !validateIp (a.ip.getD "") (a.rtype.getD "") then some 1
      else none
  match argCheck with
  | some n => .exitCode n
  | none =>
    if a.noProxy && a.proxied then .exitCode 2
    else if a.token.isEmpty then .exitCode 2
    else .proceed (a.proxied && !a.noProxy)

/- ### `update_pages_dns.py` -/

/-- Outcome reported by `update_pages_dns.upsert_cname`. -/
inductive UpsertResult where
  | unchanged (name target : String)
  | wouldUpdate (recordId : String) (p : Payload)
  | updated (recordId : String) (p : Payload)
  | wouldCreate (p : Payload)
  | created (p : Payload)
  deriving DecidableEq, Repr

/-- Model of `update_pages_dns.upsert_cname`: inspects only the first existing CNAME;
it is left unchanged when content and proxied match and the TTL equals the
requested one or equals 1 (the provider's Auto TTL); otherwise it is replaced
via PUT.  With no existing CNAME a new one is created. -/
def upsertCname (name target : String) (proxied : Bool) (ttl : Nat)
    (dryRun : Bool) (existing : List DNSRecord) : UpsertResult × List ApiCall :=
  let payload : Payload := ⟨"CNAME", name, target, ttl, none, some proxied, none⟩
  match existing with
  | [] =>
    if dryRun then (.wouldCreate payload, [])
    else (.created payload, [.post payload])
  | cur :: _ =>
    if cur.content == target && cur.proxied == some proxied
        && (cur.ttl == ttl || cur.ttl == 1) then
      (.unchanged name target, [])
    else if dryRun then (.wouldUpdate cur.id payload, [])
    else (.updated cur.id payload, [.put cur.id payload])

/-- The GitHub Pages IPv4 addresses hard-coded in `update_pages_dns.main`. -/
def githubIps : List String :=
  ["185.199.108.153", "185.199.109.153", "185.199.110.153", "185.199.111.153"]

/-- The GitHub Pages IPv6 addresses hard-coded in `update_pages_dns.main`. -/
def githubIp6s : List String :=
  ["2606:50c0:8000::153", "2606:50c0:8001::153", "2606:50c0:8002::153",
   "2606:50c0:8003::153"]

/-- The records of the zone at a given name and type (the provider's answer
to `get_dns_records(zone_id, name, type)`). -/
def recordsOf (recs : List DNSRecord) (name rtype : String) : List DNSRecord :=
  recs.filter (fun r => r.name == name && r.rtype == rtype)

/-- The apply-mode mutating call sequence of the `--set-github-a` /
`--set-github-aaaa` block of `update_pages_dns.main` (lines 271–316): first
delete every apex CNAME, then delete every existing apex A/AAAA (remembering
their previous contents as a comment), then create the requested GitHub
Pages records. -/
def setGithubOps (domain : String) (setA setAAAA : Bool) (recs : List DNSRecord) :
    List ApiCall :=
  if setA || setAAAA then
    let apexCnames := recordsOf recs domain "CNAME"
    let apexA := recordsOf recs domain "A"
    let apexAAAA := recordsOf recs domain "AAAA"
    let previousA := String.intercalate "," (apexA.map (fun r => r.content))
    let previousAAAA := String.intercalate "," (apexAAAA.map (fun r => r.content))
    let commentA : Option String :=
      if apexA.isEmpty then none else some ("Previous apex A: " ++ previousA)
    let commentAAAA : Option String :=
      if apexAAAA.isEmpty then none else some ("Previous apex AAAA: " ++ previousAAAA)
    (apexCnames.map (fun r => ApiCall.delete r.id))
      ++ ((apexA ++ apexAAAA).map (fun r => ApiCall.delete r.id))
      ++ (if setA then
            githubIps.map (fun ip =>
              ApiCall.post ⟨"A", domain, ip, 300, none, some false, commentA⟩)
          else [])
      ++ (if setAAAA then
            githubIp6s.map (fun ip6 =>
              ApiCall.post ⟨"AAAA", domain, ip6, 300, none, some false, commentAAAA⟩)
          else [])
  else []

/- ### `export_zone_dns_summary.py` -/

/-- One CSV row of the zone summary export. -/
structure Row where
  zone : String
  apexAIps : String
  apexATtls : String
  apexAProxied : String
  apexAaaaIps : String
  apexAaaaTtls : String
  apexAaaaProxied : String
  wwwCnameTarget : String
  wwwCnameTtl : String
  wwwCnameProxied : String
  otherACount : Nat
  otherAaaaCount : Nat
  otherCnameCount : Nat
  deriving DecidableEq, Repr

/-- The all-empty row recorded for a zone that could not be summarised (both
the zone-not-found row of `collect_zone_summary` and the error row of
`main`'s exception handler have exactly these fields). -/
def emptyRow (zone : String) : Row :=
  ⟨zone, "", "", "", "", "", "", "", "", "", 0, 0, 0⟩

/-- How one provider GET can end, seen from `api_get`'s caller. -/
inductive ApiOutcome (α : Type) where
  | ok (v : α)
  | httpError (msg : String)
  | netError (msg : String)
  deriving Repr

/-- The two kinds of Python exceptions distinguished by the export loop. -/
inductive PyError where
  | sysExit (msg : String)
  | exc (msg : String)
  deriving DecidableEq, Repr

/-- Model of `export_zone_dns_summary.api_get`: a non-OK status or a `success = false`
body raises `SystemExit`; transport exceptions from `requests` propagate as
ordinary exceptions. -/
def apiGetModel {α : Type} : ApiOutcome α → Except PyError α
  | .ok v => .ok v
  | .httpError m => .error (.sysExit m)
  | .netError m => .error (.exc m)

/-- What the provider would answer for one zone of the export: the zone
lookup (`/zones?name=`, `none` meaning no zone matches) and the combined
record reads that build the summary row. -/
structure ZoneEnv where
  zoneLookup : ApiOutcome (Option String)
  recordReads : ApiOutcome Row

/-- Model of `export_zone_dns_summary.collect_zone_summary`: an explicit zone-id
override skips the lookup; a missing zone yields the empty row; otherwise
the record reads produce the summary row, with `api_get` failures raising
`SystemExit` and transport failures raising ordinary exceptions. -/
def collectZoneSummary (zoneName : String) (zidOverride : Option String)
    (env : ZoneEnv) : Except PyError Row :=
  let zid : Except PyError (Option String) :=
    match zidOverride with
    | some z => .ok (some z)
    | none => apiGetModel env.zoneLookup
  match zid with
  | .error e => .error e
  | .ok none => .ok (emptyRow zoneName)
  | .ok (some _) =>
    match apiGetModel env.recordReads with
    | .error e => .error e
    | .ok row => .ok row

/-- The per-zone loop of `export_zone_dns_summary.main`: a summary row is
appended on success, `SystemExit` is re-raised and aborts the whole run, any
other exception appends the empty row and continues. -/
def exportRows : List (String × Option String × ZoneEnv) → Except String (List Row)
  | [] => .ok []
  | (z, ov, env) :: rest =>
    match collectZoneSummary z ov env with
    | .ok r => (exportRows rest).map (fun rs => r :: rs)
    | .error (.sysExit m) => .error m
    | .error (.exc _) => (exportRows rest).map (fun rs => emptyRow z :: rs)

/-- Whether a `collect_zone_summary` outcome is a `SystemExit`. -/
def isSysExitB : Except PyError Row → Bool
  | .error (.sysExit _) => true
  | _ => false

/- ### Derived views used by the dry-run/apply comparison -/

/-- The mutating call a dry-run status of `update_or_create_records`
announces (`proposed` payload of the would-be PATCH / would-be POST). -/
def recStatusIntent : RecStatus → List ApiCall
  | .dryRunStatus rid p => [.patch rid p]
  | .wouldCreate p => [.post p]
  | _ => []

/-- Whether a reported status of `update_or_create_records` denotes a
needed change (anything except `unchanged`). -/
def recStatusChanged : RecStatus → Bool
  | .unchanged _ => false
  | _ => true

/-- The mutating call a dry-run outcome of `update_or_create_mx_txt`
announces. -/
def mxTxtIntent : MxTxtResult → List ApiCall
  | .wouldCreate p => [.post p]
  | _ => []

/-- The mutating call a dry-run outcome of `upsert_cname` announces. -/
def upsertIntent : UpsertResult → List ApiCall
  | .wouldUpdate rid p => [.put rid p]
  | .wouldCreate p => [.post p]
  | _ => []

/-- The records `ensure_record` considers for the standard `www` CNAME. -/
def wwwPred (zone : String) : DNSRecord → Bool :=
  fun r => r.rtype == "CNAME" && r.name == resolveName zone "www"

lemma fetchPages_eq_drop (l : List DNSRecord) (perPage : Nat) (hp : 0 < perPage) :
    ∀ k page, 1 ≤ page → totalPages l.length perPage - page ≤ k →
      fetchPages l perPage page = l.drop ((page - 1) * perPage) := by
  intro k
  induction k with
  | zero =>
    intro page h1 hk
    have htp : totalPages l.length perPage ≤ page := by omega
    rw [fetchPages, if_pos htp]
    obtain ⟨q, rfl⟩ : ∃ q, page = q + 1 := ⟨page - 1, by omega⟩
    have hle : l.length ≤ perPage * (q + 1) := by
      have := (Nat.div_le_iff_le_mul_add_pred hp
        (a := l.length + perPage - 1) (c := q + 1)).mp htp
      omega
    have hlen : (l.drop (q * perPage)).length ≤ perPage := by
      rw [List.length_drop]
      have : perPage * (q + 1) = q * perPage + perPage := by ring
      omega
    simp [pageSlice, List.take_of_length_le hlen]
  | succ k ih =>
    intro page h1 hk
    by_cases htp : totalPages l.length perPage ≤ page
    · rw [fetchPages, if_pos htp]
      obtain ⟨q, rfl⟩ : ∃ q, page = q + 1 := ⟨page - 1, by omega⟩
      have hle : l.length ≤ perPage * (q + 1) := by
        have := (Nat.div_le_iff_le_mul_add_pred hp
          (a := l.length + perPage - 1) (c := q + 1)).mp htp
        omega
      have hlen : (l.drop (q * perPage)).length ≤ perPage := by
        rw [List.length_drop]
        have : perPage * (q + 1) = q * perPage + perPage := by ring
        omega
      simp [pageSlice, List.take_of_length_le hlen]
    · rw [fetchPages, if_neg htp]
      rw [ih (page + 1) (by omega) (by omega)]
      obtain ⟨q, rfl⟩ : ∃ q, page = q + 1 := ⟨page - 1, by omega⟩
      have hq : (q + 1 + 1 - 1) * perPage = q * perPage + perPage := by
        have h2 : q + 1 + 1 - 1 = q + 1 := by omega
        rw [h2, Nat.succ_mul]
      have hq' : (q + 1 - 1) * perPage = q * perPage := by
        have h2 : q + 1 - 1 = q := by omega
        rw [h2]
      rw [hq, hq', ← List.drop_drop]
      simp [pageSlice]

/-- C2: (amended, pagination half).  `get_all_records` exhausts every page
of the synthetic paged provider and returns exactly the provider's full
record list, in the provider's order, for every list length `N` and every
positive page size. -/
theorem getAllRecords_complete (l : List DNSRecord) (perPage : Nat)
    (hp : 0 < perPage) : getAllRecords l perPage = l := by
  have := fetchPages_eq_drop l perPage hp (totalPages l.length perPage) 1
    (Nat.le_refl 1) (by omega)
  simpa [getAllRecords] using this

/-- Witness for `getAllRecords_complete`: three records, page size two
(`N = pageSize + 1`): both pages are fetched and concatenated in order. -/
theorem getAllRecords_complete_witness :
    0 < 2 ∧ getAllRecords [mkRec 0, mkRec 1, mkRec 2] 2 = [mkRec 0, mkRec 1, mkRec 2] :=
  ⟨by decide, getAllRecords_complete [mkRec 0, mkRec 1, mkRec 2] 2 (by decide)⟩

/-- C2: counterexample.  `update_dns.get_dns_records` issues a single
request with no pagination parameters: with three matching records and page
size two it returns only the first page (two records), silently truncating —
contradicting the claim that every record-listing operation returns the
complete record set. -/
theorem getDnsRecords_truncates :
    getDnsRecordsPaged [mkRec 0, mkRec 1, mkRec 2] 2 = [mkRec 0, mkRec 1]
      ∧ [mkRec 0, mkRec 1] ≠ [mkRec 0, mkRec 1, mkRec 2] := by
  constructor
  · rfl
  · decide

/- ### Generic helper lemmas -/

lemma not_isEmpty_iff_exists_mem (l : List DNSRecord) :
    (!l.isEmpty) = true ↔ ∃ x, x ∈ l := by
  cases l with
  | nil => simp
  | cons a t =>
    simp only [List.isEmpty_cons, Bool.not_false, List.mem_cons, true_iff]
    exact ⟨a, Or.inl rfl⟩

lemma ensureRecord_fst_false_iff (zone : String) (rd : RecordDef)
    (recs : List DNSRecord) (d : Bool) :
    (ensureRecord zone rd recs d).1 = false ↔ ensureSatisfied zone rd recs = true := by
  by_cases h : ensureSatisfied zone rd recs = true
  · simp [ensureRecord, h]
  · cases d <;> simp [ensureRecord, h]

lemma ensureRecord_calls_cases (zone : String) (rd : RecordDef)
    (recs : List DNSRecord) (d : Bool) :
    (ensureRecord zone rd recs d).2 = []
      ∨ (ensureRecord zone rd recs d).2 = [ApiCall.post (payloadOf zone rd)] := by
  by_cases h : ensureSatisfied zone rd recs = true
  · simp [ensureRecord, h]
  · cases d <;> simp [ensureRecord, h]

lemma ensureRecord_of_satisfied (zone : String) (rd : RecordDef)
    (recs : List DNSRecord) (d : Bool) (h : ensureSatisfied zone rd recs = true) :
    ensureRecord zone rd recs d = (false, []) := by
  simp [ensureRecord, h]

/- ### C7: delete idempotence -/

/-- C7: counterexample.  Deleting an already-absent record id makes the
provider answer 404 (`ok = false`): `api_delete` raises `CloudflareError`
and `delete_dns_record` propagates it, so the operation is reported as a
failed mutation — not as a no-op success as the claim states. -/
theorem delete_notfound_reports_failure :
    deleteDnsRecord "gone" false ⟨false, false⟩
      = .error "DELETE /dns_records/gone failed" := rfl

/-- C7: (amended).  In apply mode a delete is reported as successful
exactly when the provider response is OK with `success = true`; any
`NotFound` condition (non-OK response) is propagated as an error, with no
special tolerance for already-absent ids. -/
theorem delete_apply_ok_iff (recordId : String) (resp : HttpResponse) :
    deleteDnsRecord recordId false resp = .ok (.deleted recordId)
      ↔ (resp.ok = true ∧ resp.success = true) := by
  obtain ⟨ok, success⟩ := resp
  cases ok <;> cases success <;> simp [deleteDnsRecord, apiDeleteModel]

/- ### C10: upsert_cname Auto-TTL acceptance -/

/-- C10:.  `upsert_cname` reports the first existing CNAME as already
satisfied (issuing no call) precisely when content and proxied match and the
record's TTL equals the requested TTL or equals 1, the provider's Auto
value; in particular a requested TTL is never enforced over an existing
Auto TTL. -/
theorem upsert_cname_satisfied_iff (name target : String) (proxied : Bool)
    (ttl : Nat) (dryRun : Bool) (cur : DNSRecord) (rest : List DNSRecord) :
    upsertCname name target proxied ttl dryRun (cur :: rest)
        = (.unchanged name target, [])
      ↔ (cur.content = target ∧ cur.proxied = some proxied
          ∧ (cur.ttl = ttl ∨ cur.ttl = 1)) := by
  by_cases h : (cur.content == target && cur.proxied == some proxied
      && (cur.ttl == ttl || cur.ttl == 1)) = true
  · simp only [upsertCname, h, if_true]
    simp only [Bool.and_eq_true, Bool.or_eq_true, beq_iff_eq] at h
    simp [h.1.1, h.1.2, h.2]
  · have h2 : ¬(cur.content = target ∧ cur.proxied = some proxied
        ∧ (cur.ttl = ttl ∨ cur.ttl = 1)) := by
      rintro ⟨hc, hp, ht⟩
      apply h
      simp only [Bool.and_eq_true, Bool.or_eq_true, beq_iff_eq]
      exact ⟨⟨hc, hp⟩, ht⟩
    cases dryRun <;> simp [upsertCname, h, h2]

/- ### C6: no Conflict outcome in the matcher -/

/-- C6: counterexample.  With an apex CNAME present, `ensure_record` for
an apex A spec reports no conflict and immediately emits the Create call —
the claimed `Conflict` outcome that blocks planning does not exist. -/
theorem ensure_creates_despite_apex_cname :
    ensureRecord "example.org" ⟨"A", "@", "185.199.108.153", none, some false⟩
        [⟨"cid", "CNAME", "example.org", "old-host.github.io", 300, none, some false⟩]
        false
      = (true, [ApiCall.post
          ⟨"A", "example.org", "185.199.108.153", 1, none, some false, none⟩]) := by
  rfl

/-- C6: (amended).  The matcher has no conflict check at all: the outcome
of `ensure_record` depends only on existing records of the spec's own type,
so records of any other type at the same name (an apex CNAME against an
apex A spec, and vice versa) neither block nor alter the emitted plan; apex
conflicts are resolved only by the explicit teardown of the pages flow. -/
theorem ensure_record_ignores_other_types (zone : String) (rd : RecordDef)
    (recs : List DNSRecord) (dryRun : Bool) :
    ensureRecord zone rd recs dryRun
      = ensureRecord zone rd (recs.filter (fun r => r.rtype == rd.rtype)) dryRun := by
  have hm : matchesFor zone rd (recs.filter (fun r => r.rtype == rd.rtype))
      = matchesFor zone rd recs := by
    unfold matchesFor
    rw [List.filter_filter]
    apply List.filter_congr
    intro r _
    cases h : (r.rtype == rd.rtype) <;> simp [h]
  unfold ensureRecord ensureSatisfied
  rw [hm]

/- ### C8: dry-run and apply share validation and classification -/

/-- C8:.  A dry-run produces the same local error outcome as apply on the
same input: the whole validation phase of `update_dns.main` (argument
requirements, IP validation, proxy-flag exclusivity, token check) never
reads the dry-run flag, and the per-record classification of the update
operations and of `ensure_record` is the same in both modes — only the
final mutating calls differ. -/
theorem dry_run_same_error_outcome :
    (∀ (a : Args) (d : Bool), mainValidate { a with dryRun := d } = mainValidate a)
    ∧ (∀ (zone : String) (rd : RecordDef) (recs : List DNSRecord) (d₁ d₂ : Bool),
        (ensureRecord zone rd recs d₁).1 = (ensureRecord zone rd recs d₂).1)
    ∧ (∀ (nm ip : String) (px : Bool) (t : String) (ex : List DNSRecord) (d₁ d₂ : Bool),
        ((updateOrCreateRecords nm ip d₁ px t ex).1.map recStatusChanged)
          = ((updateOrCreateRecords nm ip d₂ px t ex).1.map recStatusChanged)) := by
  refine ⟨?_, ?_, ?_⟩
  · intro a d
    cases a
    rfl
  · intro zone rd recs d₁ d₂
    by_cases h : ensureSatisfied zone rd recs = true
    · simp [ensureRecord, h]
    · cases d₁ <;> cases d₂ <;> simp [ensureRecord, h]
  · intro nm ip px t ex d₁ d₂
    cases ex with
    | nil => cases d₁ <;> cases d₂ <;> simp [updateOrCreateRecords, recStatusChanged]
    | cons r rest =>
      simp only [updateOrCreateRecords, List.map_map]
      apply List.map_congr_left
      intro x _
      simp only [Function.comp_apply]
      by_cases hx : (x.content == ip && x.proxied == some px) = true
      · rw [if_pos hx, if_pos hx]
      · rw [if_neg hx, if_neg hx]
        cases d₁ <;> cases d₂ <;> simp [recStatusChanged]

/- ### C4: dry-run issues no mutations and reports exactly the apply plan -/

lemma flatMap_snd_map_eq_nil {a b c : Type} (f : a → b × List c) (l : List a)
    (h : ∀ x ∈ l, (f x).2 = []) : (l.map f).flatMap Prod.snd = [] := by
  induction l with
  | nil => rfl
  | cons x xs ih =>
    simp only [List.map_cons, List.flatMap_cons]
    rw [h x (List.mem_cons_self x xs), ih (fun y hy => h y (List.mem_cons_of_mem x hy))]
    rfl

lemma flatMap_intent_map {a b e c : Type} (f : a → b × List c) (g : a → e × List c)
    (intentF : b → List c) (l : List a)
    (h : ∀ x ∈ l, intentF (f x).1 = (g x).2) :
    ((l.map f).map Prod.fst).flatMap intentF = (l.map g).flatMap Prod.snd := by
  induction l with
  | nil => rfl
  | cons x xs ih =>
    simp only [List.map_cons, List.flatMap_cons]
    rw [h x (List.mem_cons_self x xs), ih (fun y hy => h y (List.mem_cons_of_mem x hy))]

/-- C4:.  In dry-run mode every record operation issues zero mutating
calls, and the operations it reports as intended are exactly the mutating
calls the apply mode would issue against the same existing-record state:
this holds for `update_or_create_records`, `update_or_create_mx_txt`,
`upsert_cname` and `ensure_record`. -/
theorem dry_run_zero_mutations :
    (∀ (nm ip : String) (px : Bool) (t : String) (ex : List DNSRecord),
        (updateOrCreateRecords nm ip true px t ex).2 = []
          ∧ (updateOrCreateRecords nm ip true px t ex).1.flatMap recStatusIntent
              = (updateOrCreateRecords nm ip false px t ex).2)
    ∧ (∀ (nm ct t : String) (pr : Nat) (ex : List DNSRecord),
        (updateOrCreateMxTxt nm ct true t pr ex).2 = []
          ∧ mxTxtIntent (updateOrCreateMxTxt nm ct true t pr ex).1
              = (updateOrCreateMxTxt nm ct false t pr ex).2)
    ∧ (∀ (nm tgt : String) (px : Bool) (ttl : Nat) (ex : List DNSRecord),
        (upsertCname nm tgt px ttl true ex).2 = []
          ∧ upsertIntent (upsertCname nm tgt px ttl true ex).1
              = (upsertCname nm tgt px ttl false ex).2)
    ∧ (∀ (zone : String) (rd : RecordDef) (recs : List DNSRecord),
        (ensureRecord zone rd recs true).2 = []
          ∧ (ensureRecord zone rd recs false).2
              = (if (ensureRecord zone rd recs true).1 then
                  [ApiCall.post (payloadOf zone rd)] else [])) := by
  refine ⟨?_, ?_, ?_, ?_⟩
  · intro nm ip px t ex
    cases ex with
    | nil => simp [updateOrCreateRecords, recStatusIntent]
    | cons r rest =>
      simp only [updateOrCreateRecords]
      constructor
      · apply flatMap_snd_map_eq_nil
        intro x _
        by_cases hx : (x.content == ip && x.proxied == some px) = true
        · rw [if_pos hx]
        · rw [if_neg hx]
          simp
      · apply flatMap_intent_map
        intro x _
        by_cases hx : (x.content == ip && x.proxied == some px) = true
        · rw [if_pos hx, if_pos hx]
          rfl
        · rw [if_neg hx, if_neg hx]
          rfl
  · intro nm ct t pr ex
    cases hf : ex.find? (fun r =>
        r.content == ct && (t != "MX" || r.priority == some pr)) with
    | some r => simp [updateOrCreateMxTxt, hf, mxTxtIntent]
    | none => simp [updateOrCreateMxTxt, hf, mxTxtIntent]
  · intro nm tgt px ttl ex
    cases ex with
    | nil => simp [upsertCname, upsertIntent]
    | cons cur rest =>
      by_cases hc : (cur.content == tgt && cur.proxied == some px
          && (cur.ttl == ttl || cur.ttl == 1)) = true
      · simp [upsertCname, hc, upsertIntent]
      · simp [upsertCname, hc, upsertIntent]
  · intro zone rd recs
    by_cases h : ensureSatisfied zone rd recs = true
    · simp [ensureRecord, h]
    · simp [ensureRecord, h]

/- ### C1: multi-value classification and non-destruction -/

lemma ensureSatisfied_multi_iff (zone : String) (rd : RecordDef)
    (recs : List DNSRecord)
    (h : rd.rtype = "MX" ∨ rd.rtype = "TXT" ∨ rd.rtype = "A") :
    ensureSatisfied zone rd recs = true
      ↔ ∃ r, r ∈ recs ∧ r.rtype = rd.rtype ∧ r.name = resolveName zone rd.name
          ∧ r.content = rd.content
          ∧ (rd.rtype = "MX" → r.priority = some (rd.priority.getD 10)) := by
  unfold ensureSatisfied satisfiedOn matchesFor
  rcases h with h | h | h
  · rw [h]
    rw [if_pos (by decide : (("MX" == "MX" || "MX" == "TXT" || "MX" == "A") = true))]
    dsimp only
    rw [if_pos (by decide : (("MX" == "MX") = true))]
    rw [not_isEmpty_iff_exists_mem]
    constructor
    · rintro ⟨r, hr⟩
      simp only [List.mem_filter, Bool.and_eq_true, beq_iff_eq] at hr
      exact ⟨r, hr.1.1.1, hr.1.1.2.1, hr.1.1.2.2, hr.1.2, fun _ => hr.2⟩
    · rintro ⟨r, hr, ht, hn, hc, hpr⟩
      refine ⟨r, ?_⟩
      simp only [List.mem_filter, Bool.and_eq_true, beq_iff_eq]
      exact ⟨⟨⟨hr, ht, hn⟩, hc⟩, hpr rfl⟩
  · rw [h]
    rw [if_pos (by decide : (("TXT" == "MX" || "TXT" == "TXT" || "TXT" == "A") = true))]
    dsimp only
    rw [if_neg (by decide : ¬(("TXT" == "MX") = true))]
    rw [not_isEmpty_iff_exists_mem]
    constructor
    · rintro ⟨r, hr⟩
      simp only [List.mem_filter, Bool.and_eq_true, beq_iff_eq] at hr
      exact ⟨r, hr.1.1, hr.1.2.1, hr.1.2.2, hr.2,
        fun hmx => absurd hmx (by decide)⟩
    · rintro ⟨r, hr, ht, hn, hc, _⟩
      refine ⟨r, ?_⟩
      simp only [List.mem_filter, Bool.and_eq_true, beq_iff_eq]
      exact ⟨⟨hr, ht, hn⟩, hc⟩
  · rw [h]
    rw [if_pos (by decide : (("A" == "MX" || "A" == "TXT" || "A" == "A") = true))]
    dsimp only
    rw [if_neg (by decide : ¬(("A" == "MX") = true))]
    rw [not_isEmpty_iff_exists_mem]
    constructor
    · rintro ⟨r, hr⟩
      simp only [List.mem_filter, Bool.and_eq_true, beq_iff_eq] at hr
      exact ⟨r, hr.1.1, hr.1.2.1, hr.1.2.2, hr.2,
        fun hmx => absurd hmx (by decide)⟩
    · rintro ⟨r, hr, ht, hn, hc, _⟩
      refine ⟨r, ?_⟩
      simp only [List.mem_filter, Bool.and_eq_true, beq_iff_eq]
      exact ⟨⟨hr, ht, hn⟩, hc⟩

lemma applyCalls_eq_append (recs : List DNSRecord) (calls : List ApiCall)
    (h : ∀ c ∈ calls, ∃ p, c = ApiCall.post p) :
    applyCalls recs calls = recs ++ postedRecords calls := by
  induction calls generalizing recs with
  | nil => simp [applyCalls, postedRecords]
  | cons c rest ih =>
    obtain ⟨p, rfl⟩ := h c (List.mem_cons_self c rest)
    have hrest : ∀ c ∈ rest, ∃ p, c = ApiCall.post p :=
      fun c hc => h c (List.mem_cons_of_mem _ hc)
    show applyCalls (applyCall recs (ApiCall.post p)) rest = _
    rw [ih _ hrest]
    simp [applyCall, postedRecords, List.append_assoc]

lemma mem_postedRecords (calls : List ApiCall) (p : Payload)
    (h : ApiCall.post p ∈ calls) :
    recordOfPayload "new" p ∈ postedRecords calls := by
  unfold postedRecords
  exact List.mem_flatMap.mpr ⟨ApiCall.post p, h, by simp⟩

/-- C1: counterexample.  The claim fails twice on the code: (a) the ad-hoc
A/AAAA operation `update_or_create_records` PATCHes an existing non-matching
A record in place instead of creating alongside it, and (b) `ensure_record`
treats AAAA as a single-slot type, comparing only the first record, so an
exact AAAA match in second position is still classified as needing a
create. -/
theorem multi_value_claim_fails :
    (updateOrCreateRecords "x.example.org" "5.6.7.8" false false "A"
        [⟨"rid0", "A", "x.example.org", "1.2.3.4", 120, none, some false⟩]).2
      = [ApiCall.patch "rid0" ⟨"A", "x.example.org", "5.6.7.8", 120, none, some false, none⟩]
    ∧ (ensureRecord "example.org" ⟨"AAAA", "@", "2606:50c0:8000::153", none, none⟩
        [⟨"i1", "AAAA", "example.org", "2606:50c0:8001::153", 300, none, some false⟩,
         ⟨"i2", "AAAA", "example.org", "2606:50c0:8000::153", 300, none, some false⟩]
        true).1 = true := by
  exact ⟨rfl, rfl⟩

/-- C1: (amended).  For the multi-value types of the standard ensure
operation — MX, TXT and A (not AAAA, which `ensure_record` compares
single-slot, and not the ad-hoc updater, which rewrites records in place) —
`ensure_record` classifies a spec as already satisfied exactly when some
existing record at the same type and resolved name has exactly equal
content (and, for MX, equal priority); otherwise it emits only a Create; it
never emits an update or delete, and every existing record survives the run
unchanged, in place. -/
theorem ensure_multi_value_additive (zone : String) (rd : RecordDef)
    (recs : List DNSRecord) (dryRun : Bool)
    (h : rd.rtype = "MX" ∨ rd.rtype = "TXT" ∨ rd.rtype = "A") :
    ((ensureRecord zone rd recs dryRun).1 = false
        ↔ ∃ r, r ∈ recs ∧ r.rtype = rd.rtype ∧ r.name = resolveName zone rd.name
            ∧ r.content = rd.content
            ∧ (rd.rtype = "MX" → r.priority = some (rd.priority.getD 10)))
    ∧ ((ensureRecord zone rd recs dryRun).2 = []
        ∨ (ensureRecord zone rd recs dryRun).2 = [ApiCall.post (payloadOf zone rd)])
    ∧ applyCalls recs (ensureRecord zone rd recs dryRun).2
        = recs ++ postedRecords (ensureRecord zone rd recs dryRun).2 := by
  refine ⟨?_, ensureRecord_calls_cases zone rd recs dryRun, ?_⟩
  · rw [ensureRecord_fst_false_iff]
    exact ensureSatisfied_multi_iff zone rd recs h
  · apply applyCalls_eq_append
    intro c hc
    rcases ensureRecord_calls_cases zone rd recs dryRun with h1 | h1 <;> rw [h1] at hc
    · exact absurd hc (List.not_mem_nil c)
    · rw [List.mem_singleton] at hc
      exact ⟨payloadOf zone rd, hc⟩

/-- Witness for `ensure_multi_value_additive`: the standard MX spec against
an empty zone — absent, so one Create is emitted and the zone keeps (and
only gains) records. -/
theorem ensure_multi_value_additive_witness :
    ("MX" = "MX" ∨ "MX" = "TXT" ∨ "MX" = "A")
    ∧ (((ensureRecord "example.org"
          ⟨"MX", "@", "freeforcharity-org.mail.protection.outlook.com", some 0, none⟩
          [] false).1 = false
        ↔ ∃ r, r ∈ ([] : List DNSRecord)
            ∧ r.rtype = "MX"
            ∧ r.name = resolveName "example.org" "@"
            ∧ r.content = "freeforcharity-org.mail.protection.outlook.com"
            ∧ ("MX" = "MX" → r.priority = some ((some 0).getD 10)))
      ∧ ((ensureRecord "example.org"
          ⟨"MX", "@", "freeforcharity-org.mail.protection.outlook.com", some 0, none⟩
          [] false).2 = []
        ∨ (ensureRecord "example.org"
          ⟨"MX", "@", "freeforcharity-org.mail.protection.outlook.com", some 0, none⟩
          [] false).2
            = [ApiCall.post (payloadOf "example.org"
                ⟨"MX", "@", "freeforcharity-org.mail.protection.outlook.com", some 0, none⟩)])
      ∧ applyCalls []
            (ensureRecord "example.org"
              ⟨"MX", "@", "freeforcharity-org.mail.protection.outlook.com", some 0, none⟩
              [] false).2
          = [] ++ postedRecords
              (ensureRecord "example.org"
                ⟨"MX", "@", "freeforcharity-org.mail.protection.outlook.com", some 0, none⟩
                [] false).2) :=
  ⟨Or.inl rfl,
    ensure_multi_value_additive "example.org"
      ⟨"MX", "@", "freeforcharity-org.mail.protection.outlook.com", some 0, none⟩
      [] false (Or.inl rfl)⟩

/- ### C3: apex teardown ordering in the pages flow -/

lemma delete_before_post_of_split (dels posts : List ApiCall)
    (hd : ∀ o ∈ dels, ∃ rid, o = ApiCall.delete rid)
    (hp : ∀ o ∈ posts, ∃ p, o = ApiCall.post p) :
    ∀ (i j : Nat) (rid : String) (p : Payload),
      (dels ++ posts)[i]? = some (ApiCall.delete rid) →
      (dels ++ posts)[j]? = some (ApiCall.post p) → i < j := by
  intro i j rid p hi hj
  have hilt : i < dels.length := by
    by_contra hge
    push_neg at hge
    rw [List.getElem?_append_right hge] at hi
    obtain ⟨q, hq⟩ := hp _ (List.getElem?_mem hi)
    exact ApiCall.noConfusion hq
  have hjge : dels.length ≤ j := by
    by_contra hlt
    push_neg at hlt
    rw [List.getElem?_append_left hlt] at hj
    obtain ⟨rid2, hq⟩ := hd _ (List.getElem?_mem hj)
    exact ApiCall.noConfusion hq
  omega

/-- C3:.  Whenever the pages flow is asked for apex A and/or AAAA records,
the emitted call sequence contains a Delete for every apex CNAME record of
the actual state, and every Delete in the sequence comes strictly before
every Create — so no apex A/AAAA Create is ever issued while a conflicting
apex CNAME remains in the plan's predicted state. -/
theorem apex_cname_deleted_before_creates (domain : String) (setA setAAAA : Bool)
    (recs : List DNSRecord) (hset : setA = true ∨ setAAAA = true) :
    (∀ c ∈ recordsOf recs domain "CNAME",
        ApiCall.delete c.id ∈ setGithubOps domain setA setAAAA recs)
    ∧ (∀ (i j : Nat) (rid : String) (p : Payload),
        (setGithubOps domain setA setAAAA recs)[i]? = some (ApiCall.delete rid) →
        (setGithubOps domain setA setAAAA recs)[j]? = some (ApiCall.post p) →
        i < j) := by
  have hcond : (setA || setAAAA) = true := by
    rcases hset with h | h <;> simp [h]
  have hshape : setGithubOps domain setA setAAAA recs
      = ((recordsOf recs domain "CNAME").map (fun r => ApiCall.delete r.id)
          ++ ((recordsOf recs domain "A" ++ recordsOf recs domain "AAAA").map
              (fun r => ApiCall.delete r.id)))
        ++ ((if setA then
              githubIps.map (fun ip =>
                ApiCall.post ⟨"A", domain, ip, 300, none, some false,
                  if (recordsOf recs domain "A").isEmpty then none
                  else some ("Previous apex A: " ++ String.intercalate ","
                    ((recordsOf recs domain "A").map (fun r => r.content)))⟩)
            else [])
          ++ (if setAAAA then
              githubIp6s.map (fun ip6 =>
                ApiCall.post ⟨"AAAA", domain, ip6, 300, none, some false,
                  if (recordsOf recs domain "AAAA").isEmpty then none
                  else some ("Previous apex AAAA: " ++ String.intercalate ","
                    ((recordsOf recs domain "AAAA").map (fun r => r.content)))⟩)
            else [])) := by
    rw [setGithubOps, if_pos hcond]
    dsimp only
    rw [List.append_assoc, List.append_assoc]
  constructor
  · intro c hc
    rw [hshape]
    exact List.mem_append_left _ (List.mem_append_left _
      (List.mem_map.mpr ⟨c, hc, rfl⟩))
  · rw [hshape]
    apply delete_before_post_of_split
    · intro o ho
      rcases List.mem_append.mp ho with h1 | h1 <;>
        obtain ⟨r, _, rfl⟩ := List.mem_map.mp h1 <;> exact ⟨r.id, rfl⟩
    · intro o ho
      rcases List.mem_append.mp ho with h1 | h1
      · rcases hA : setA with _ | _
        · rw [hA] at h1
          simp at h1
        · rw [hA] at h1
          simp only [if_pos rfl] at h1
          obtain ⟨ip, _, rfl⟩ := List.mem_map.mp h1
          exact ⟨_, rfl⟩
      · rcases hA : setAAAA with _ | _
        · rw [hA] at h1
          simp at h1
        · rw [hA] at h1
          simp only [if_pos rfl] at h1
          obtain ⟨ip6, _, rfl⟩ := List.mem_map.mp h1
          exact ⟨_, rfl⟩

/-- Witness for `apex_cname_deleted_before_creates`: a zone whose apex holds
one CNAME; requesting the GitHub A records emits a Delete for that CNAME. -/
theorem apex_cname_deleted_before_creates_witness :
    (true = true ∨ false = true)
    ∧ ApiCall.delete "cid" ∈ setGithubOps "ffcworkingsite1.org" true false
        [⟨"cid", "CNAME", "ffcworkingsite1.org", "oldhost.github.io", 300, none, some false⟩] :=
  ⟨Or.inl rfl,
    (apex_cname_deleted_before_creates "ffcworkingsite1.org" true false
      [⟨"cid", "CNAME", "ffcworkingsite1.org", "oldhost.github.io", 300, none, some false⟩]
      (Or.inl rfl)).1
      ⟨"cid", "CNAME", "ffcworkingsite1.org", "oldhost.github.io", 300, none, some false⟩
      (by decide)⟩

/- ### C9: batch export continuation -/

/-- C9: counterexample.  When the record read of a zone fails at the API
level (`api_get` sees a non-OK response), `collect_zone_summary` raises
`SystemExit`, which the export loop re-raises: the whole run aborts instead
of recording an empty row for that zone and continuing, so the output does
not contain one row per input zone. -/
theorem export_aborts_on_api_failure :
    exportRows
        [("a.org", none, ⟨.ok (some "zidA"), .ok (emptyRow "a.org")⟩),
         ("b.org", some "zidB", ⟨.ok none, .httpError "GET /zones/zidB/dns_records failed: 403"⟩),
         ("c.org", none, ⟨.ok (some "zidC"), .ok (emptyRow "c.org")⟩)]
      = .error "GET /zones/zidB/dns_records failed: 403" := rfl

/-- C9: (amended).  The export records an empty row and continues only
for zone-not-found results and non-`SystemExit` exceptions (e.g. network
errors); whenever no zone's processing raises `SystemExit` (as an `api_get`
HTTP failure does), the output contains exactly one row per input zone. -/
theorem export_one_row_per_zone (zones : List (String × Option String × ZoneEnv))
    (h : ∀ e ∈ zones, isSysExitB (collectZoneSummary e.1 e.2.1 e.2.2) = false) :
    ∃ rows, exportRows zones = .ok rows ∧ rows.length = zones.length := by
  induction zones with
  | nil => exact ⟨[], rfl, rfl⟩
  | cons e rest ih =>
    obtain ⟨z, ov, env⟩ := e
    have he := h _ (List.mem_cons_self _ rest)
    obtain ⟨rows, hrows, hlen⟩ :=
      ih (fun x hx => h x (List.mem_cons_of_mem _ hx))
    match hcol : collectZoneSummary z ov env with
    | .ok r =>
      refine ⟨r :: rows, ?_, by simp [hlen]⟩
      simp only [exportRows, hcol, hrows, Except.map]
    | .error (.sysExit m) =>
      rw [hcol] at he
      exact absurd he (by simp [isSysExitB])
    | .error (.exc m) =>
      refine ⟨emptyRow z :: rows, ?_, by simp [hlen]⟩
      simp only [exportRows, hcol, hrows, Except.map]

/-- Witness for `export_one_row_per_zone`: one zone whose lookup finds no
zone id — an empty row is recorded and the output has one row. -/
theorem export_one_row_per_zone_witness :
    (∀ e ∈ [(("a.org" : String), (none : Option String),
        (⟨.ok none, .ok (emptyRow "a.org")⟩ : ZoneEnv))],
      isSysExitB (collectZoneSummary e.1 e.2.1 e.2.2) = false)
    ∧ ∃ rows,
        exportRows [("a.org", none, ⟨.ok none, .ok (emptyRow "a.org")⟩)] = .ok rows
          ∧ rows.length
              = [(("a.org" : String), (none : Option String),
                  (⟨.ok none, .ok (emptyRow "a.org")⟩ : ZoneEnv))].length :=
  ⟨by
    intro e he
    rw [List.mem_singleton] at he
    rw [he]
    rfl,
   export_one_row_per_zone _ (by
    intro e he
    rw [List.mem_singleton] at he
    rw [he]
    rfl)⟩

/- ### C5: idempotence of the standard reconciliation -/

lemma postedRecords_append (a b : List ApiCall) :
    postedRecords (a ++ b) = postedRecords a ++ postedRecords b := by
  simp [postedRecords, List.flatMap_append]

lemma enforceRun_calls_posts (zone : String) (recs : List DNSRecord) (d : Bool) :
    ∀ c ∈ (enforceRun zone recs d).2, ∃ p, c = ApiCall.post p := by
  intro c hc
  simp only [enforceRun, List.mem_flatMap, List.mem_map] at hc
  obtain ⟨res, ⟨rd, hrd, rfl⟩, hcres⟩ := hc
  rcases ensureRecord_calls_cases zone rd recs d with h | h <;> rw [h] at hcres
  · exact absurd hcres (List.not_mem_nil c)
  · rw [List.mem_singleton] at hcres
    exact ⟨_, hcres⟩

lemma enforceRun_post_of_not_satisfied (zone : String) (recs : List DNSRecord)
    (rd : RecordDef) (hrd : rd ∈ standards zone)
    (hns : ensureSatisfied zone rd recs = false) :
    ApiCall.post (payloadOf zone rd) ∈ (enforceRun zone recs false).2 := by
  simp only [enforceRun, List.mem_flatMap, List.mem_map]
  refine ⟨ensureRecord zone rd recs false, ⟨rd, hrd, rfl⟩, ?_⟩
  simp [ensureRecord, hns]

lemma multi_satisfied_second (zone : String) (recs : List DNSRecord)
    (rd : RecordDef) (hrd : rd ∈ standards zone)
    (hm : rd.rtype = "MX" ∨ rd.rtype = "TXT" ∨ rd.rtype = "A") :
    ensureSatisfied zone rd
        (recs ++ postedRecords (enforceRun zone recs false).2) = true := by
  by_cases hs : ensureSatisfied zone rd recs = true
  · rw [ensureSatisfied_multi_iff _ _ _ hm] at hs ⊢
    obtain ⟨r, hr, hrest⟩ := hs
    exact ⟨r, List.mem_append_left _ hr, hrest⟩
  · have hns : ensureSatisfied zone rd recs = false := by
      cases hq : ensureSatisfied zone rd recs
      · rfl
      · exact absurd hq hs
    have hpost := enforceRun_post_of_not_satisfied zone recs rd hrd hns
    rw [ensureSatisfied_multi_iff _ _ _ hm]
    refine ⟨recordOfPayload "new" (payloadOf zone rd),
      List.mem_append_right _ (mem_postedRecords _ _ hpost), rfl, rfl, rfl, ?_⟩
    intro hmx
    simp [recordOfPayload, payloadOf, hmx]

lemma posted_filter_other (zone : String) (rd : RecordDef) (recs : List DNSRecord)
    (d : Bool) (hne : (rd.rtype == "CNAME") = false) :
    (postedRecords (ensureRecord zone rd recs d).2).filter (wwwPred zone) = [] := by
  rcases ensureRecord_calls_cases zone rd recs d with h | h <;> rw [h]
  · rfl
  · simp [postedRecords, recordOfPayload, payloadOf, wwwPred, hne]

lemma posted_filter_cname (zone : String) (recs : List DNSRecord) :
    (postedRecords (ensureRecord zone (cnameRd zone) recs false).2).filter (wwwPred zone)
      = (if ensureSatisfied zone (cnameRd zone) recs = true then []
         else [recordOfPayload "new" (payloadOf zone (cnameRd zone))]) := by
  by_cases hs : ensureSatisfied zone (cnameRd zone) recs = true
  · rw [ensureRecord_of_satisfied _ _ _ _ hs, if_pos hs]
    rfl
  · rw [if_neg hs]
    have hns : ensureSatisfied zone (cnameRd zone) recs = false := by
      cases hq : ensureSatisfied zone (cnameRd zone) recs
      · rfl
      · exact absurd hq hs
    have hrec : ensureRecord zone (cnameRd zone) recs false
        = (true, [ApiCall.post (payloadOf zone (cnameRd zone))]) := by
      simp [ensureRecord, hns]
    rw [hrec]
    simp [postedRecords, recordOfPayload, payloadOf, wwwPred, cnameRd]

lemma enforce_posted_www (zone : String) (recs : List DNSRecord) :
    (postedRecords (enforceRun zone recs false).2).filter (wwwPred zone)
      = (if ensureSatisfied zone (cnameRd zone) recs = true then []
         else [recordOfPayload "new" (payloadOf zone (cnameRd zone))]) := by
  simp only [enforceRun, standards, List.map_cons, List.map_nil, List.flatMap_cons,
    List.flatMap_nil, List.append_nil, postedRecords_append, List.filter_append]
  rw [posted_filter_cname]
  rw [posted_filter_other zone _ recs false (by decide)]
  rw [posted_filter_other zone _ recs false (by decide)]
  rw [posted_filter_other zone _ recs false (by decide)]
  rw [posted_filter_other zone _ recs false (by decide)]
  rw [posted_filter_other zone _ recs false (by decide)]
  rw [posted_filter_other zone _ recs false (by decide)]
  rw [posted_filter_other zone _ recs false (by decide)]
  simp

lemma enforceRun_all_satisfied (zone : String) (recs2 : List DNSRecord)
    (hsat : ∀ rd ∈ standards zone, ensureSatisfied zone rd recs2 = true) :
    enforceRun zone recs2 false = (0, []) := by
  have hmap : (standards zone).map (fun rd => ensureRecord zone rd recs2 false)
      = (standards zone).map (fun _ => ((false : Bool), ([] : List ApiCall))) :=
    List.map_congr_left (fun rd hrd => ensureRecord_of_satisfied _ _ _ _ (hsat rd hrd))
  simp only [enforceRun]
  rw [hmap]
  simp [standards]

lemma cname_second_run (zone : String) (recs : List DNSRecord)
    (H : recs.filter (wwwPred zone) = []
        ∨ ∃ r rest, recs.filter (wwwPred zone) = r :: rest ∧ r.content = zone) :
    ensureSatisfied zone (cnameRd zone)
        (recs ++ postedRecords (enforceRun zone recs false).2) = true := by
  have hmf : ∀ (l : List DNSRecord),
      matchesFor zone (cnameRd zone) l = l.filter (wwwPred zone) := fun l => rfl
  unfold ensureSatisfied
  rw [hmf, List.filter_append, enforce_posted_www]
  rcases H with H | ⟨r, rest, H, hrc⟩
  · have h1 : ensureSatisfied zone (cnameRd zone) recs = false := by
      unfold ensureSatisfied
      rw [hmf, H]
      rfl
    rw [H, h1]
    simp [satisfiedOn, cnameRd, recordOfPayload, payloadOf]
  · have h1 : ensureSatisfied zone (cnameRd zone) recs = true := by
      unfold ensureSatisfied
      rw [hmf, H]
      simp [satisfiedOn, cnameRd, hrc]
    rw [H, h1, if_pos rfl]
    simp [satisfiedOn, cnameRd, hrc]

/-- C5: counterexample.  A zone holding a `www` CNAME pointing elsewhere:
the first apply run creates a second `www` CNAME beside it, and the second
run still finds the stale record first, so it reports one change again
instead of zero — the reconciliation is not idempotent from this state (a
real provider would instead reject the duplicate CNAME create, failing the
first run). -/
theorem enforce_not_idempotent_from_stale_www :
    (enforceRun "example.org"
        (applyCalls
          [⟨"w1", "CNAME", "www.example.org", "old-host.github.io", 300, none, some false⟩]
          (enforceRun "example.org"
            [⟨"w1", "CNAME", "www.example.org", "old-host.github.io", 300, none, some false⟩]
            false).2)
        false).1 = 1 := by decide

/-- C5: (amended).  Whenever the zone has no `www` CNAME, or its first
`www` CNAME already carries the standard content (the zone name), running
the standard reconciliation in apply mode and then running it again against
the resulting state classifies every standard record as satisfied: the
second run reports zero changes needed and issues no calls. -/
theorem enforce_standard_idempotent (zone : String) (recs : List DNSRecord)
    (H : recs.filter (wwwPred zone) = []
        ∨ ∃ r rest, recs.filter (wwwPred zone) = r :: rest ∧ r.content = zone) :
    (enforceRun zone (applyCalls recs (enforceRun zone recs false).2) false).1 = 0
    ∧ (enforceRun zone (applyCalls recs (enforceRun zone recs false).2) false).2 = [] := by
  have happ : applyCalls recs (enforceRun zone recs false).2
      = recs ++ postedRecords (enforceRun zone recs false).2 :=
    applyCalls_eq_append _ _ (enforceRun_calls_posts zone recs false)
  rw [happ]
  have hsat : ∀ rd ∈ standards zone,
      ensureSatisfied zone rd
        (recs ++ postedRecords (enforceRun zone recs false).2) = true := by
    intro rd hrd
    have hrd2 := hrd
    simp only [standards, List.mem_cons, List.not_mem_nil, or_false] at hrd2
    rcases hrd2 with rfl | rfl | rfl | rfl | rfl | rfl | rfl | rfl
    · exact multi_satisfied_second zone recs _ hrd (Or.inl rfl)
    · exact multi_satisfied_second zone recs _ hrd (Or.inr (Or.inl rfl))
    · exact multi_satisfied_second zone recs _ hrd (Or.inr (Or.inl rfl))
    · exact multi_satisfied_second zone recs _ hrd (Or.inr (Or.inr rfl))
    · exact multi_satisfied_second zone recs _ hrd (Or.inr (Or.inr rfl))
    · exact multi_satisfied_second zone recs _ hrd (Or.inr (Or.inr rfl))
    · exact multi_satisfied_second zone recs _ hrd (Or.inr (Or.inr rfl))
    · exact cname_second_run zone recs H
  have h0 : enforceRun zone
      (recs ++ postedRecords (enforceRun zone recs false).2) false = (0, []) :=
    enforceRun_all_satisfied zone _ hsat
  exact ⟨by rw [h0], by rw [h0]⟩

/-- Witness for `enforce_standard_idempotent`: an initially empty zone — no
`www` CNAME exists, the first run creates the full standard set, the second
reports zero changes. -/
theorem enforce_standard_idempotent_witness :
    (([] : List DNSRecord).filter (wwwPred "example.org") = []
        ∨ ∃ r rest, ([] : List DNSRecord).filter (wwwPred "example.org") = r :: rest
            ∧ r.content = "example.org")
    ∧ ((enforceRun "example.org"
          (applyCalls [] (enforceRun "example.org" [] false).2) false).1 = 0
      ∧ (enforceRun "example.org"
          (applyCalls [] (enforceRun "example.org" [] false).2) false).2 = []) :=
  ⟨Or.inl rfl, enforce_standard_idempotent "example.org" [] (Or.inl rfl)⟩
